import Mathlib

/-!
Shallow embedding of the entity-data HTTP service (`src/main.py`).

Conventions of the embedding:
* machine time (`datetime.utcnow()`) is passed in explicitly as a `Nat` timestamp;
* the Supabase table is a `List Row`; a query is a pure function over that list,
  and an endpoint that mutates the table returns the new list;
* HTTP error responses are `Except Nat _` values carrying the status code;
* Python strings are Lean `String`s; `str.lower` is modelled on the ASCII range
  (`Char.toLower`), and the whitespace set of `str.split()` is modelled by the
  six ASCII whitespace characters;
* SQL `NULL` in a nullable column is `Option.none`; a JSON-array column that is
  always written as a list is a plain `List`.
-/

/-- The ASCII whitespace characters recognised by Python `str.split()`
(space, tab, newline, carriage return, form feed, vertical tab). -/
def isPySpace (c : Char) : Bool :=
  c == ' ' || c == '\t' || c == '\n' || c == '\r' ||
    c == Char.ofNat 12 || c == Char.ofNat 11

/-- Python `s.lower()` (ASCII range). -/
def pyLower (s : String) : String := ⟨s.data.map Char.toLower⟩

/-- Python `"".join(s.split())`: remove every whitespace character. -/
def pyStripWS (s : String) : String := ⟨s.data.filter (fun c => !(isPySpace c))⟩

/-- Python `s.split(',')[0]`: the substring up to (not including) the first comma. -/
def beforeComma (s : String) : String := ⟨s.data.takeWhile (fun c => c != ',')⟩

/-- Folder-name derivation as written in `create_folders` and both upload
handlers (`src/main.py` lines 140-142, 233-235, 531-533):
`name_part = "".join(name.lower().split())`,
`address_part = "".join(address.lower().split(',')[0].split())`,
joined with an underscore. -/
def deriveFolderName (name address : String) : String :=
  pyStripWS (pyLower name) ++ "_" ++ pyStripWS (beforeComma (pyLower address))

/-- One row of the `entity_data` table. `rating` carries no arithmetic anywhere
in the service (values are only copied), so its carrier is modelled as `Int`. -/
structure Row where
  id : String
  place_id : String
  name : String
  description : Option String := none
  is_spending_on_ads : Option Bool := none
  reviews : Option Int := none
  rating : Option Int := none
  competitors : Option String := none
  website : Option String := none
  phone : Option String := none
  address : Option String := none
  can_claim : Option Bool := none
  owner_name : Option String := none
  owner_profile_link : Option String := none
  featured_image : Option String := none
  main_category : Option String := none
  uploaded_image : Option Bool := none
  images : List String := []
  folder_name : Option String := none
  created_at : Nat := 0
  updated_at : Nat := 0
  deriving DecidableEq, Repr

/-- The `EntityData` request model of `POST /entity`: `place_id` and `name`
required, the rest optional with the pydantic defaults of `src/main.py`
lines 28-47 (`uploaded_image = False`, `images = []`). -/
structure EntityIn where
  place_id : String
  name : String
  description : Option String := none
  is_spending_on_ads : Option Bool := none
  reviews : Option Int := none
  rating : Option Int := none
  competitors : Option String := none
  website : Option String := none
  phone : Option String := none
  address : Option String := none
  can_claim : Option Bool := none
  owner_name : Option String := none
  owner_profile_link : Option String := none
  featured_image : Option String := none
  main_category : Option String := none
  uploaded_image : Option Bool := some false
  images : List String := []
  folder_name : Option String := none
  created_at : Option Nat := none
  deriving DecidableEq, Repr

/-- The row stored by a successful insert in `create_entity`
(`src/main.py` lines 91-105): `created_at` defaults to the current time,
`updated_at` is always the current time (the request model has no
`updated_at` field), `uploaded_image` defaults to `False`, and `images`
is stored exactly as sent by the client. -/
def mkCreatedRow (e : EntityIn) (freshId : String) (now : Nat) : Row :=
  { id := freshId
    place_id := e.place_id
    name := e.name
    description := e.description
    is_spending_on_ads := e.is_spending_on_ads
    reviews := e.reviews
    rating := e.rating
    competitors := e.competitors
    website := e.website
    phone := e.phone
    address := e.address
    can_claim := e.can_claim
    owner_name := e.owner_name
    owner_profile_link := e.owner_profile_link
    featured_image := e.featured_image
    main_category := e.main_category
    uploaded_image := some (e.uploaded_image.getD false)
    images := e.images
    folder_name := e.folder_name
    created_at := e.created_at.getD now
    updated_at := now }

/-- `POST /entity` (`create_entity`, `src/main.py` lines 87-113).
A duplicate `place_id` makes the store raise; the blanket
`except Exception` turns that into a 500 response with the store unchanged.
On a successful insert the handler executes `return filtered_data[0]`
(line 111), but no variable `filtered_data` is ever assigned in this
function: Python raises `NameError`, the blanket `except Exception`
catches it, and the handler answers 500 — after the row has already been
inserted. -/
def create_entity (e : EntityIn) (freshId : String) (now : Nat) (store : List Row) :
    List Row × Except Nat Row :=
  if store.any (fun r => r.place_id == e.place_id) then
    (store, .error 500)
  else
    (store ++ [mkCreatedRow e freshId now], .error 500)

/-- `GET /entity/{id}` (`get_entity`, `src/main.py` lines 301-313).
On a miss the handler raises `HTTPException(404)` *inside* the `try`
block; unlike every other handler, `get_entity` has no
`except HTTPException: raise` arm, so its own blanket
`except Exception` catches the 404 and re-raises it as a 500
(`detail = "Error: 404: Entity not found"`). -/
def get_entity (store : List Row) (eid : String) : Except Nat Row :=
  match store.filter (fun r => r.id == eid) with
  | [] => .error 500
  | r :: _ => .ok r

/-- The hardcoded base directory of `src/main.py` (lines 149, 242, 411, 505).
`os.path.join`'s separator is platform-dependent; it is modelled as `"/"`. -/
def baseDirStr : String := "D:\\script-data"

def pathJoin (a b : String) : String := a ++ "/" ++ b

def listStartsWith : List Char → List Char → Bool
  | [], _ => true
  | _ :: _, [] => false
  | c :: cs, d :: ds => c == d && listStartsWith cs ds

/-- `s.startswith(pre)` over the character lists (Lean's own
`String.startsWith` works on byte positions, which the kernel cannot
evaluate; this structural version is extensionally the same check). -/
def strStartsWith (pre s : String) : Bool := listStartsWith pre.data s.data

/-- `query.ilike("name", f"{pat}%")`: case-insensitive prefix match.
(LIKE metacharacters inside `pat` are outside the modelled fragment.) -/
def ilikeStartsWith (pat s : String) : Bool :=
  strStartsWith (pyLower pat) (pyLower s)

/-- The store-side part of the listing/search query: the optional
name-prefix predicate and the `created_at` range predicates, applied by the
store before the range window.  The date strings are modelled as
already-parsed `Nat` timestamps (`strptime` itself is outside the embedded
fragment).  An empty `name` parameter is falsy in Python, so
`if name:` skips the predicate. -/
def storeQuery (store : List Row) (nameQ : Option String)
    (fromTs toTs : Option Nat) : List Row :=
  let q1 := match nameQ with
    | some n => if n = "" then store else store.filter (fun r => ilikeStartsWith n r.name)
    | none => store
  let q2 := match fromTs with
    | some t => q1.filter (fun r => t ≤ r.created_at)
    | none => q1
  match toTs with
  | some t => q2.filter (fun r => r.created_at ≤ t)
  | none => q2

/-- `query.range(start, end)` with `start = (page-1)*take` and
`end = start + take - 1` (inclusive): a window of at most `take` rows. -/
def pageWindow (page take : Int) (rows : List Row) : List Row :=
  (rows.drop ((page - 1) * take).toNat).take take.toNat

/-- The post-fetch `checkimages` pass of `get_all_entities`
(`src/main.py` lines 470-483) and `search_entities` (lines 609-622),
run over the rows of the already-paginated page:
`true` keeps rows whose `images` is null/empty, `false` keeps rows with a
non-empty `images`, unset keeps everything. -/
def checkImagesPostFilter (ci : Option Bool) (rows : List Row) : List Row :=
  match ci with
  | some true => rows.filter (fun r => r.images.isEmpty)
  | some false => rows.filter (fun r => !r.images.isEmpty)
  | none => rows

/-- The `folderDir` read-time projection attached by `get_all_entities`
(lines 486-490): present only when `folder_name` is truthy. -/
def folderDir (r : Row) : Option String :=
  match r.folder_name with
  | some f => if f = "" then none else some (pathJoin baseDirStr f)
  | none => none

/-- `GET /entities` (`get_all_entities`, `src/main.py` lines 397-496).
The leading `if` models the FastAPI validation of
`Query(1, ge=1)` / `Query(10, ge=1, le=100)`, which rejects the request
before the handler body (and hence any store access) runs. -/
def get_all_entities (page take : Int) (nameQ : Option String) (ci : Option Bool)
    (fromTs toTs : Option Nat) (store : List Row) :
    Except Nat (List (Row × Option String)) :=
  if page < 1 ∨ take < 1 ∨ 100 < take then .error 422
  else
    let pageRows := pageWindow page take (storeQuery store nameQ fromTs toTs)
    .ok ((checkImagesPostFilter ci pageRows).map (fun r => (r, folderDir r)))

/-- `GET /search-entities` (`search_entities`, `src/main.py` lines 549-629).
`q` is required with `min_length=1`; page/take validated as above. -/
def search_entities (q : String) (page take : Int) (ci : Option Bool)
    (fromTs toTs : Option Nat) (store : List Row) : Except Nat (List Row) :=
  if q = "" ∨ page < 1 ∨ take < 1 ∨ 100 < take then .error 422
  else
    let pageRows := pageWindow page take (storeQuery store (some q) fromTs toTs)
    .ok (checkImagesPostFilter ci pageRows)

/-- Python truthiness of an optional string column (`business.get('address')`):
false for SQL NULL and for the empty string. -/
def truthyStr : Option String → Bool
  | some s => s != ""
  | none => false

/-- The guard of the `create_folders` loop (`src/main.py` line 527):
`if not business.get('name') or not business.get('address'): continue`. -/
def rowEligible (b : Row) : Bool := b.name != "" && truthyStr b.address

/-- `supabase.table(...).update({"folder_name": fn}).eq("place_id", pid)`:
every row whose `place_id` matches is patched. -/
def setFolderByPlaceId (pid fn : String) (store : List Row) : List Row :=
  store.map (fun r => if r.place_id == pid then { r with folder_name := some fn } else r)

/-- The rows matched by `.is_("folder_name", "null")`: SQL NULL only
(an empty-string folder name is not NULL). -/
def nullFolderRows (store : List Row) : List Row :=
  store.filter (fun r => r.folder_name.isNone)

/-- One iteration of the `create_folders` loop (`src/main.py` lines 525-541):
skip rows without truthy name/address, otherwise derive the folder name,
update by `place_id`, and append the first updated row (with its
`folderDir`) to the response. -/
def cfStep (acc : List Row × List (Row × String)) (b : Row) :
    List Row × List (Row × String) :=
  if rowEligible b then
    let fn := deriveFolderName b.name (b.address.getD "")
    let store' := setFolderByPlaceId b.place_id fn acc.1
    match store'.filter (fun r => r.place_id == b.place_id) with
    | [] => (store', acc.2)
    | r :: _ => (store', acc.2 ++ [(r, pathJoin baseDirStr fn)])
  else acc

/-- `GET /create-folders` (`create_folders`, `src/main.py` lines 498-546).
Unlike the listing endpoints, `page` and `take` here are plain `int`
parameters with no `Query(ge=..., le=...)` constraints: FastAPI performs no
range validation and the handler always reaches the store query.  A
negative range offset/end is rejected by the store and surfaces as a 500
through the blanket `except` (modelled; no claim depends on that branch). -/
def create_folders (page take : Int) (store : List Row) :
    Except Nat (List Row × List (Row × String)) :=
  let start := (page - 1) * take
  let stop := start + take - 1
  if start < 0 ∨ stop < 0 then .error 500
  else
    let sel := ((nullFolderRows store).drop start.toNat).take take.toNat
    if sel.isEmpty then .ok (store, [])
    else .ok (sel.foldl cfStep (store, []))

/-- C1: the claim says a create request with the required fields whose insert
succeeds returns the stored row.  The code cannot: `create_entity` returns
the undefined name `filtered_data` (line 111), so even when the insert
succeeds (the row is appended to the store) the response is a 500 error,
never the stored row. -/
theorem create_entity_insert_succeeds_but_500 (e : EntityIn) (freshId : String)
    (now : Nat) (store : List Row)
    (hfresh : ∀ r ∈ store, r.place_id ≠ e.place_id) :
    (create_entity e freshId now store).1 = store ++ [mkCreatedRow e freshId now] ∧
    (create_entity e freshId now store).2 = .error 500 := by
  have hany : store.any (fun r => r.place_id == e.place_id) = false := by
    simp only [List.any_eq_false, beq_iff_eq]
    exact hfresh
  constructor <;> simp [create_entity, hany]

theorem create_entity_insert_succeeds_but_500_witness :
    ((create_entity { place_id := "p1", name := "n1" } "id1" 5 []).1 =
      [] ++ [mkCreatedRow { place_id := "p1", name := "n1" } "id1" 5] ∧
     (create_entity { place_id := "p1", name := "n1" } "id1" 5 []).2 = .error 500) :=
  create_entity_insert_succeeds_but_500 { place_id := "p1", name := "n1" } "id1" 5 []
    (by intro r hr; simp at hr)

/-- C2: the claim says a get-by-id miss fails with a 404.  The handler does
raise a 404, but its own blanket `except Exception` (with no
`except HTTPException` arm) converts it, so the response the client sees
is a 500, not a 404. -/
theorem get_entity_miss_gives_500_not_404 (store : List Row) (eid : String)
    (hmiss : ∀ r ∈ store, r.id ≠ eid) :
    get_entity store eid = .error 500 ∧ (500 : Nat) ≠ 404 := by
  have hnil : store.filter (fun r => r.id == eid) = [] := by
    simp only [List.filter_eq_nil_iff, beq_iff_eq]
    exact hmiss
  refine ⟨?_, by decide⟩
  simp [get_entity, hnil]

theorem get_entity_miss_gives_500_not_404_witness :
    (get_entity [{ id := "a", place_id := "p", name := "n" }] "b" = .error 500 ∧
     (500 : Nat) ≠ 404) :=
  get_entity_miss_gives_500_not_404 [{ id := "a", place_id := "p", name := "n" }] "b"
    (by intro r hr; simp at hr; simp [hr])

/-- A minimal row for concrete examples. -/
def exRow (i : Nat) (imgs : List String) : Row :=
  { id := toString i, place_id := toString i, name := "biz", images := imgs }

/-- A ten-row store in which exactly rows 2, 5 and 8 have an empty
`images` list. -/
def exampleStore10 : List Row :=
  [exRow 1 ["a"], exRow 2 [], exRow 3 ["b"], exRow 4 ["c"], exRow 5 [],
   exRow 6 ["d"], exRow 7 ["e"], exRow 8 [], exRow 9 ["f"], exRow 10 ["g"]]

/-- C3: in both the listing and the search endpoint the `checkimages`
condition is a post-fetch pass over the already-paginated page window
(unset = no filter, `true` = keep rows with empty `images`, `false` = keep
rows with non-empty `images`), so the response can hold fewer than `take`
rows; on a fetched page of 10 rows of which exactly 3 have empty `images`,
`checkimages=true` returns exactly those 3. -/
theorem checkimages_is_post_pagination_filter
    (page take : Int) (nameQ : Option String) (ci : Option Bool)
    (fromTs toTs : Option Nat) (store : List Row) (q : String)
    (hp : 1 ≤ page) (ht1 : 1 ≤ take) (ht2 : take ≤ 100) (hq : q ≠ "") :
    (get_all_entities page take nameQ ci fromTs toTs store =
      .ok ((checkImagesPostFilter ci
              (pageWindow page take (storeQuery store nameQ fromTs toTs))).map
            (fun r => (r, folderDir r)))) ∧
    (search_entities q page take ci fromTs toTs store =
      .ok (checkImagesPostFilter ci
            (pageWindow page take (storeQuery store (some q) fromTs toTs)))) ∧
    (∀ rows : List Row,
      checkImagesPostFilter none rows = rows ∧
      checkImagesPostFilter (some true) rows =
        rows.filter (fun r => r.images.isEmpty) ∧
      checkImagesPostFilter (some false) rows =
        rows.filter (fun r => !r.images.isEmpty)) ∧
    (∀ rows : List Row,
      (checkImagesPostFilter ci (pageWindow page take rows)).length ≤ take.toNat) ∧
    (get_all_entities 1 10 none (some true) none none exampleStore10 =
      .ok [(exRow 2 [], none), (exRow 5 [], none), (exRow 8 [], none)]) := by
  refine ⟨?_, ?_, ?_, ?_, ?_⟩
  · simp only [get_all_entities]
    rw [if_neg (by omega)]
  · simp only [search_entities]
    rw [if_neg (by simp only [not_or]; exact ⟨hq, by omega, by omega, by omega⟩)]
  · intro rows
    exact ⟨rfl, rfl, rfl⟩
  · intro rows
    have h1 : (checkImagesPostFilter ci (pageWindow page take rows)).length ≤
        (pageWindow page take rows).length := by
      cases ci with
      | none => exact Nat.le_refl _
      | some b => cases b <;> exact List.length_filter_le _ _
    have h2 : (pageWindow page take rows).length ≤ take.toNat := by
      simp only [pageWindow, List.length_take]
      exact Nat.min_le_left _ _
    exact Nat.le_trans h1 h2
  · rfl

theorem checkimages_is_post_pagination_filter_witness :
    get_all_entities 1 10 none (some true) none none exampleStore10 =
      .ok [(exRow 2 [], none), (exRow 5 [], none), (exRow 8 [], none)] :=
  (checkimages_is_post_pagination_filter 1 10 none (some true) none none
    exampleStore10 "q" (by decide) (by decide) (by decide) (by decide)).2.2.2.2

/-- A concrete row with a NULL folder name for the C9 counterexample. -/
def cfRow : Row :=
  { id := "1", place_id := "p1", name := "Biz Name",
    address := some "12 Foo St, Bar", folder_name := none }

/-- `cfRow` after the batch job assigns its folder name. -/
def cfRowDone : Row := { cfRow with folder_name := some "bizname_12foost" }

/-- C9 counterexample: `GET /create-folders` takes `page` and `take`, yet
`take = 101` (outside `[1,100]`) is not rejected: the handler runs, reads
the store, updates a row and answers success — not a client-input error,
and not before store access. -/
theorem create_folders_out_of_range_take_reaches_store :
    create_folders 1 101 [cfRow] =
      .ok ([cfRowDone], [(cfRowDone, pathJoin baseDirStr "bizname_12foost")]) ∧
    cfRowDone ≠ cfRow := by
  constructor
  · rfl
  · decide

/-- C9 amended: for the two endpoints that declare `Query(ge=1)` /
`Query(ge=1, le=100)` constraints — the listing and the search endpoint —
an out-of-range `page`/`take` fails with a 422 client-input error whose
value does not depend on the store (no store access); the `create-folders`
endpoint declares no such constraints and is exempt. -/
theorem out_of_range_pagination_rejected_before_store
    (page take : Int) (nameQ : Option String) (ci : Option Bool)
    (fromTs toTs : Option Nat) (q : String)
    (h : page < 1 ∨ take < 1 ∨ 100 < take) :
    (∀ store : List Row,
      get_all_entities page take nameQ ci fromTs toTs store = .error 422) ∧
    (∀ store : List Row,
      search_entities q page take ci fromTs toTs store = .error 422) := by
  constructor
  · intro store
    simp only [get_all_entities]
    rw [if_pos h]
  · intro store
    simp only [search_entities]
    rw [if_pos (Or.inr h)]

theorem out_of_range_pagination_rejected_before_store_witness :
    (∀ store : List Row,
      get_all_entities 0 10 none none none none store = .error 422) ∧
    (∀ store : List Row,
      search_entities "q" 0 10 none none none store = .error 422) :=
  out_of_range_pagination_rejected_before_store 0 10 none none none none "q"
    (by decide)

/-- The table contents after one run of the batch folder-assignment job
(an error response leaves the store untouched). -/
def cfStoreAfter (page take : Int) (store : List Row) : List Row :=
  match create_folders page take store with
  | .ok p => p.1
  | .error _ => store

/-- The effect of one `create_folders` loop iteration for `b` on a single
stored row `r`: the update by `place_id` patches `folder_name` when `b`
was eligible and the keys match. -/
def cfRowStep (r b : Row) : Row :=
  if rowEligible b && r.place_id == b.place_id then
    { r with folder_name := some (deriveFolderName b.name (b.address.getD "")) }
  else r

/-- A stored row after the whole `create_folders` loop over `sel`. -/
def cfRowAfter (sel : List Row) (r : Row) : Row := sel.foldl cfRowStep r

theorem cfStep_fst (acc : List Row × List (Row × String)) (b : Row) :
    (cfStep acc b).1 = acc.1.map (fun r => cfRowStep r b) := by
  by_cases hb : rowEligible b
  · simp only [cfStep, hb, if_true]
    cases hf : (setFolderByPlaceId b.place_id
        (deriveFolderName b.name (b.address.getD "")) acc.1).filter
        (fun r => r.place_id == b.place_id) with
    | nil => simp [setFolderByPlaceId, cfRowStep, hb]
    | cons r rest => simp [setFolderByPlaceId, cfRowStep, hb]
  · simp only [cfStep, hb, if_false]
    rw [List.map_id'' (fun r => by simp [cfRowStep, hb])]
    simp

theorem cfFold_fst (sel : List Row) :
    ∀ (st : List Row) (resp : List (Row × String)),
      (sel.foldl cfStep (st, resp)).1 = st.map (cfRowAfter sel) := by
  induction sel with
  | nil =>
    intro st resp
    simp only [List.foldl_nil]
    exact (List.map_id'' (fun r => rfl) st).symm
  | cons b rest ih =>
    intro st resp
    have hpair : cfStep (st, resp) b = ((cfStep (st, resp) b).1, (cfStep (st, resp) b).2) := rfl
    rw [List.foldl_cons, hpair, ih, cfStep_fst, List.map_map]
    rfl

theorem cfRowStep_place_id (r b : Row) : (cfRowStep r b).place_id = r.place_id := by
  unfold cfRowStep
  split <;> rfl

theorem cfRowAfter_place_id (sel : List Row) :
    ∀ r : Row, (cfRowAfter sel r).place_id = r.place_id := by
  induction sel with
  | nil => intro r; rfl
  | cons b rest ih =>
    intro r
    show (cfRowAfter rest (cfRowStep r b)).place_id = r.place_id
    rw [ih, cfRowStep_place_id]

theorem cfRowStep_isSome (r b : Row) (h : r.folder_name.isSome) :
    (cfRowStep r b).folder_name.isSome := by
  unfold cfRowStep
  split <;> simp [h]

theorem cfRowAfter_isSome_of_isSome (sel : List Row) :
    ∀ r : Row, r.folder_name.isSome → (cfRowAfter sel r).folder_name.isSome := by
  induction sel with
  | nil => intro r h; exact h
  | cons b rest ih =>
    intro r h
    exact ih (cfRowStep r b) (cfRowStep_isSome r b h)

theorem cfRowStep_of_folder_none (r b : Row) (h : (cfRowStep r b).folder_name = none) :
    cfRowStep r b = r := by
  unfold cfRowStep at h ⊢
  split at h
  · simp at h
  · split
    · simp_all
    · rfl

theorem cfRowAfter_of_folder_none (sel : List Row) :
    ∀ r : Row, (cfRowAfter sel r).folder_name = none → cfRowAfter sel r = r := by
  induction sel with
  | nil => intro r _; rfl
  | cons b rest ih =>
    intro r h
    have hstep : cfRowAfter (b :: rest) r = cfRowAfter rest (cfRowStep r b) := rfl
    rw [hstep] at h ⊢
    have h1 := ih (cfRowStep r b) h
    rw [h1] at h ⊢
    exact cfRowStep_of_folder_none r b h

theorem cfRowAfter_isSome_of_mem (sel : List Row) :
    ∀ r r' : Row, r ∈ sel → rowEligible r → r'.place_id = r.place_id →
      (cfRowAfter sel r').folder_name.isSome := by
  induction sel with
  | nil => intro r r' h; simp at h
  | cons b rest ih =>
    intro r r' hmem helig hpid
    rcases List.mem_cons.mp hmem with hb | hrest
    · rw [show cfRowAfter (b :: rest) r' = cfRowAfter rest (cfRowStep r' b) from rfl]
      apply cfRowAfter_isSome_of_isSome
      unfold cfRowStep
      rw [if_pos (by simp [← hb, helig, hpid])]
      rfl
    · rw [show cfRowAfter (b :: rest) r' = cfRowAfter rest (cfRowStep r' b) from rfl]
      exact ih r (cfRowStep r' b) hrest helig
        ((cfRowStep_place_id r' b).trans hpid)

theorem nullFolderRows_map_length_le (f : Row → Row)
    (hf : ∀ r : Row, (f r).folder_name = none → f r = r) :
    ∀ store : List Row,
      (nullFolderRows (store.map f)).length ≤ (nullFolderRows store).length := by
  intro store
  induction store with
  | nil => exact Nat.le_refl _
  | cons r st ih =>
    simp only [List.map_cons, nullFolderRows, List.filter_cons] at ih ⊢
    cases hr : (f r).folder_name with
    | none =>
      have heq : f r = r := hf r hr
      have hrnone : r.folder_name = none := by rw [← heq]; exact hr
      simp only [heq, hrnone]
      simpa using Nat.succ_le_succ ih
    | some v =>
      cases hrn : (r.folder_name).isNone
      · simpa using ih
      · simpa using Nat.le_trans ih (Nat.le_succ _)

theorem cfFold_skips_all (sel : List Row)
    (h : ∀ b ∈ sel, rowEligible b = false) :
    ∀ (st : List Row) (resp : List (Row × String)),
      sel.foldl cfStep (st, resp) = (st, resp) := by
  induction sel with
  | nil => intro st resp; rfl
  | cons b rest ih =>
    intro st resp
    have hb : rowEligible b = false := h b (List.mem_cons_self b rest)
    have hstep : cfStep (st, resp) b = (st, resp) := by
      simp [cfStep, hb]
    rw [List.foldl_cons, hstep]
    exact ih (fun x hx => h x (List.mem_cons_of_mem b hx)) st resp

theorem create_folders_page1 (take : Int) (store : List Row)
    (h1 : 1 ≤ take) (h2 : (nullFolderRows store).length ≤ take.toNat) :
    create_folders 1 take store =
      .ok ((nullFolderRows store).foldl cfStep (store, [])) := by
  have hstart : ((1:Int) - 1) * take = 0 := by ring
  have hcond : ¬(((1:Int) - 1) * take < 0 ∨ ((1:Int) - 1) * take + take - 1 < 0) := by
    rw [hstart]; omega
  simp only [create_folders]
  rw [if_neg hcond, hstart]
  simp only [Int.toNat_zero, List.drop_zero]
  rw [List.take_of_length_le h2]
  cases hnull : nullFolderRows store with
  | nil => simp
  | cons a l => simp

theorem cfStoreAfter_page1 (take : Int) (store : List Row)
    (h1 : 1 ≤ take) (h2 : (nullFolderRows store).length ≤ take.toNat) :
    cfStoreAfter 1 take store = store.map (cfRowAfter (nullFolderRows store)) := by
  simp only [cfStoreAfter, create_folders_page1 take store h1 h2]
  exact cfFold_fst (nullFolderRows store) store []

/-- Two rows with NULL `folder_name`, both carrying a usable name and
address, for the C8 counterexample. -/
def c8RowA : Row :=
  { id := "1", place_id := "pa", name := "Alpha", address := some "1 A St, X" }

def c8RowB : Row :=
  { id := "2", place_id := "pb", name := "Beta", address := some "2 B St, Y" }

/-- C8 counterexample: with two NULL-`folder_name` rows and a window of
`take = 1`, the first run of the batch job only reaches row A; the second
run's NULL-`folder_name` query then selects row B and updates it, so the
second run does change the store — the job is not idempotent when the
eligible rows exceed one page. -/
theorem create_folders_second_run_changes_store :
    cfStoreAfter 1 1 [c8RowA, c8RowB] =
      [{ c8RowA with folder_name := some "alpha_1ast" }, c8RowB] ∧
    cfStoreAfter 1 1 (cfStoreAfter 1 1 [c8RowA, c8RowB]) =
      [{ c8RowA with folder_name := some "alpha_1ast" },
       { c8RowB with folder_name := some "beta_2bst" }] ∧
    cfStoreAfter 1 1 (cfStoreAfter 1 1 [c8RowA, c8RowB]) ≠
      cfStoreAfter 1 1 [c8RowA, c8RowB] := by
  refine ⟨by decide, by decide, by decide⟩

/-- C8 amended: the second run of the batch folder-assignment job is a
no-op on the store provided the first run's page window covered every
NULL-`folder_name` row (here: `page = 1` and at most `take` such rows).
The first run assigns a folder name to every selected row with a truthy
name and address; the rows still NULL afterwards are exactly the skipped
ones, which the second run selects again and skips again, updating
nothing and reporting no rows. -/
theorem create_folders_second_run_noop (take : Int) (store : List Row)
    (h1 : 1 ≤ take) (h2 : (nullFolderRows store).length ≤ take.toNat) :
    create_folders 1 take (cfStoreAfter 1 take store) =
      .ok (cfStoreAfter 1 take store, []) := by
  set sel := nullFolderRows store with hseldef
  have hs1 : cfStoreAfter 1 take store = store.map (cfRowAfter sel) :=
    cfStoreAfter_page1 take store h1 h2
  have hfix : ∀ r : Row, (cfRowAfter sel r).folder_name = none → cfRowAfter sel r = r :=
    fun r h => cfRowAfter_of_folder_none sel r h
  -- every row still NULL after the first run was skipped, hence ineligible
  have hinelig : ∀ r1 ∈ nullFolderRows (cfStoreAfter 1 take store),
      rowEligible r1 = false := by
    intro r1 hr1
    rw [hs1] at hr1
    have hmem := List.mem_filter.mp hr1
    obtain ⟨r0, hr0, heq⟩ := List.mem_map.mp hmem.1
    have hnone : (cfRowAfter sel r0).folder_name = none := by
      rw [heq]
      exact Option.isNone_iff_eq_none.mp hmem.2
    have hfix0 : cfRowAfter sel r0 = r0 := hfix r0 hnone
    have hr1r0 : r1 = r0 := by rw [← heq, hfix0]
    have hr0none : r0.folder_name = none := by rw [← hfix0]; exact hnone
    have hr0mem : r0 ∈ sel := by
      rw [hseldef]
      exact List.mem_filter.mpr ⟨hr0, by rw [hr0none]; rfl⟩
    cases hel : rowEligible r1 with
    | false => rfl
    | true =>
      exfalso
      have := cfRowAfter_isSome_of_mem sel r0 r0 hr0mem (by rw [← hr1r0]; exact hel) rfl
      rw [hfix0, hr0none] at this
      simp at this
  have hlen1 : (nullFolderRows (cfStoreAfter 1 take store)).length ≤ take.toNat := by
    rw [hs1]
    exact Nat.le_trans (nullFolderRows_map_length_le (cfRowAfter sel) hfix store) h2
  rw [create_folders_page1 take (cfStoreAfter 1 take store) h1 hlen1]
  rw [cfFold_skips_all (nullFolderRows (cfStoreAfter 1 take store)) hinelig]

theorem create_folders_second_run_noop_witness :
    create_folders 1 1 (cfStoreAfter 1 1 [c8RowA]) =
      .ok (cfStoreAfter 1 1 [c8RowA], []) :=
  create_folders_second_run_noop 1 [c8RowA] (by decide) (by decide)

theorem toNat_ofNat_of_lt {n : Nat} (h : n < 55296) : (Char.ofNat n).toNat = n := by
  have hv : n.isValidChar := Or.inl h
  rw [Char.ofNat, dif_pos hv]
  rfl

theorem toLower_eq_comma_iff (c : Char) : Char.toLower c = ',' ↔ c = ',' := by
  have hdef : Char.toLower c =
      if c.toNat ≥ 65 ∧ c.toNat ≤ 90 then Char.ofNat (c.toNat + 32) else c := rfl
  constructor
  · intro h
    rw [hdef] at h
    by_cases hcond : c.toNat ≥ 65 ∧ c.toNat ≤ 90
    · rw [if_pos hcond] at h
      exfalso
      have htn := congrArg Char.toNat h
      rw [toNat_ofNat_of_lt (by omega)] at htn
      have h44 : (',' : Char).toNat = 44 := rfl
      omega
    · rwa [if_neg hcond] at h
  · intro h
    subst h
    rfl

theorem toLower_bne_comma (c : Char) : (Char.toLower c != ',') = (c != ',') := by
  by_cases hc : c = ','
  · subst hc; rfl
  · have h2 : Char.toLower c ≠ ',' := fun h => hc ((toLower_eq_comma_iff c).mp h)
    rw [bne_iff_ne.mpr h2, bne_iff_ne.mpr hc]

theorem takeWhile_comma_map_toLower (l : List Char) :
    (l.map Char.toLower).takeWhile (fun c => c != ',') =
      (l.takeWhile (fun c => c != ',')).map Char.toLower := by
  induction l with
  | nil => rfl
  | cons c l ih =>
    simp only [List.map_cons, List.takeWhile_cons, toLower_bne_comma]
    cases hc : (c != ',')
    · simp
    · simp only [if_pos, List.map_cons]
      rw [ih]

theorem beforeComma_pyLower (s : String) :
    beforeComma (pyLower s) = pyLower (beforeComma s) := by
  simp only [beforeComma, pyLower]
  exact congrArg String.mk (takeWhile_comma_map_toLower s.data)

/-- Folder-name derivation in the order the spec words it: take the address
substring before the first comma first, then lower-case and strip it. -/
def deriveFolderNameSpec (name address : String) : String :=
  pyStripWS (pyLower name) ++ "_" ++ pyStripWS (pyLower (beforeComma address))

/-- C4: folder-name derivation is a pure function agreeing with the spec's
algorithm — lower-case and whitespace-strip the name, truncate the address
at the first comma, lower-case and whitespace-strip it, join with an
underscore (the source lower-cases the address before truncating, which is
equivalent since lower-casing fixes the comma) — and on the spec's example
it yields the spec's value. -/
theorem derive_folder_name_matches_spec (name address : String)
    (_hn : name ≠ "") (_ha : address ≠ "") :
    deriveFolderName name address = deriveFolderNameSpec name address ∧
    deriveFolderName "Joe's Cafe" "123 Main St, Springfield" =
      "joe'scafe_123mainst" := by
  constructor
  · simp only [deriveFolderName, deriveFolderNameSpec, beforeComma_pyLower]
  · rfl

theorem derive_folder_name_matches_spec_witness :
    (deriveFolderName "Ab C" "1 D, E" = deriveFolderNameSpec "Ab C" "1 D, E" ∧
     deriveFolderName "Joe's Cafe" "123 Main St, Springfield" =
       "joe'scafe_123mainst") :=
  derive_folder_name_matches_spec "Ab C" "1 D, E" (by decide) (by decide)

/-- The `EntityDataUpdate` request model (`src/main.py` lines 316-333):
seventeen optional fields; `id`, `place_id`, `created_at` and `updated_at`
are not part of the patch. -/
structure Patch where
  name : Option String := none
  description : Option String := none
  is_spending_on_ads : Option Bool := none
  reviews : Option Int := none
  rating : Option Int := none
  competitors : Option String := none
  website : Option String := none
  phone : Option String := none
  address : Option String := none
  can_claim : Option Bool := none
  owner_name : Option String := none
  owner_profile_link : Option String := none
  featured_image : Option String := none
  main_category : Option String := none
  uploaded_image : Option Bool := none
  images : Option (List String) := none
  folder_name : Option String := none
  deriving DecidableEq, Repr

/-- The payload application of both update handlers (`src/main.py`
lines 344-354 and 375-385): only non-None patch fields enter
`update_payload`, so only those columns are overwritten; `updated_at` is
always set to the request time. -/
def applyPatch (now : Nat) (p : Patch) (r : Row) : Row :=
  { r with
    name := p.name.getD r.name
    description := match p.description with | some v => some v | none => r.description
    is_spending_on_ads := match p.is_spending_on_ads with
      | some v => some v | none => r.is_spending_on_ads
    reviews := match p.reviews with | some v => some v | none => r.reviews
    rating := match p.rating with | some v => some v | none => r.rating
    competitors := match p.competitors with | some v => some v | none => r.competitors
    website := match p.website with | some v => some v | none => r.website
    phone := match p.phone with | some v => some v | none => r.phone
    address := match p.address with | some v => some v | none => r.address
    can_claim := match p.can_claim with | some v => some v | none => r.can_claim
    owner_name := match p.owner_name with | some v => some v | none => r.owner_name
    owner_profile_link := match p.owner_profile_link with
      | some v => some v | none => r.owner_profile_link
    featured_image := match p.featured_image with
      | some v => some v | none => r.featured_image
    main_category := match p.main_category with
      | some v => some v | none => r.main_category
    uploaded_image := match p.uploaded_image with
      | some v => some v | none => r.uploaded_image
    images := p.images.getD r.images
    folder_name := match p.folder_name with | some v => some v | none => r.folder_name
    updated_at := now }

/-- `PUT /entity/{id}` (`update_entity`, `src/main.py` lines 335-364):
fetch to verify existence (404 on miss), apply the non-None patch fields,
persist, return the updated row.  This handler has an
`except HTTPException: raise` arm, so its 404 reaches the client. -/
def update_entity (store : List Row) (eid : String) (p : Patch) (now : Nat) :
    Except Nat (List Row × Row) :=
  if (store.filter (fun r => r.id == eid)).isEmpty then .error 404
  else
    let newStore := store.map (fun r => if r.id == eid then applyPatch now p r else r)
    match newStore.filter (fun r => r.id == eid) with
    | [] => .error 500
    | r :: _ => .ok (newStore, r)

/-- `PUT /entity/place_id/{place_id}` (`update_entity_by_place_id`,
`src/main.py` lines 366-395): identical to `update_entity` with the
`place_id` key. -/
def update_entity_by_place_id (store : List Row) (pid : String) (p : Patch) (now : Nat) :
    Except Nat (List Row × Row) :=
  if (store.filter (fun r => r.place_id == pid)).isEmpty then .error 404
  else
    let newStore := store.map (fun r => if r.place_id == pid then applyPatch now p r else r)
    match newStore.filter (fun r => r.place_id == pid) with
    | [] => .error 500
    | r :: _ => .ok (newStore, r)

/-- Field-by-field contract of one patched row: a field absent from the
patch keeps its stored value, a present field takes the patch's value;
`id`, `place_id` and `created_at` are never touched; `updated_at` is
rewritten to the request time. -/
def patchFrame (now : Nat) (p : Patch) (r r' : Row) : Prop :=
  r'.id = r.id ∧ r'.place_id = r.place_id ∧ r'.created_at = r.created_at ∧
  r'.updated_at = now ∧
  (p.name = none → r'.name = r.name) ∧
  (∀ v, p.name = some v → r'.name = v) ∧
  (p.description = none → r'.description = r.description) ∧
  (∀ v, p.description = some v → r'.description = some v) ∧
  (p.is_spending_on_ads = none → r'.is_spending_on_ads = r.is_spending_on_ads) ∧
  (∀ v, p.is_spending_on_ads = some v → r'.is_spending_on_ads = some v) ∧
  (p.reviews = none → r'.reviews = r.reviews) ∧
  (∀ v, p.reviews = some v → r'.reviews = some v) ∧
  (p.rating = none → r'.rating = r.rating) ∧
  (∀ v, p.rating = some v → r'.rating = some v) ∧
  (p.competitors = none → r'.competitors = r.competitors) ∧
  (∀ v, p.competitors = some v → r'.competitors = some v) ∧
  (p.website = none → r'.website = r.website) ∧
  (∀ v, p.website = some v → r'.website = some v) ∧
  (p.phone = none → r'.phone = r.phone) ∧
  (∀ v, p.phone = some v → r'.phone = some v) ∧
  (p.address = none → r'.address = r.address) ∧
  (∀ v, p.address = some v → r'.address = some v) ∧
  (p.can_claim = none → r'.can_claim = r.can_claim) ∧
  (∀ v, p.can_claim = some v → r'.can_claim = some v) ∧
  (p.owner_name = none → r'.owner_name = r.owner_name) ∧
  (∀ v, p.owner_name = some v → r'.owner_name = some v) ∧
  (p.owner_profile_link = none → r'.owner_profile_link = r.owner_profile_link) ∧
  (∀ v, p.owner_profile_link = some v → r'.owner_profile_link = some v) ∧
  (p.featured_image = none → r'.featured_image = r.featured_image) ∧
  (∀ v, p.featured_image = some v → r'.featured_image = some v) ∧
  (p.main_category = none → r'.main_category = r.main_category) ∧
  (∀ v, p.main_category = some v → r'.main_category = some v) ∧
  (p.uploaded_image = none → r'.uploaded_image = r.uploaded_image) ∧
  (∀ v, p.uploaded_image = some v → r'.uploaded_image = some v) ∧
  (p.images = none → r'.images = r.images) ∧
  (∀ v, p.images = some v → r'.images = v) ∧
  (p.folder_name = none → r'.folder_name = r.folder_name) ∧
  (∀ v, p.folder_name = some v → r'.folder_name = some v)

theorem applyPatch_patchFrame (now : Nat) (p : Patch) (r : Row) :
    patchFrame now p r (applyPatch now p r) := by
  unfold patchFrame applyPatch
  refine ⟨rfl, rfl, rfl, rfl, ?_, ?_, ?_, ?_, ?_, ?_, ?_, ?_, ?_, ?_, ?_, ?_,
    ?_, ?_, ?_, ?_, ?_, ?_, ?_, ?_, ?_, ?_, ?_, ?_, ?_, ?_, ?_, ?_, ?_, ?_,
    ?_, ?_, ?_, ?_⟩ <;>
    first
      | (intro h; rw [h]; rfl)
      | (intro v hv; rw [hv]; rfl)
      | (intro h; rw [h])
      | (intro v hv; rw [hv])

/-- C6: on an existing entity both update endpoints succeed and rewrite the
store by patching exactly the key-matching rows; on the patched row every
field absent from the patch keeps its stored value (no field can be
cleared to null), every present field takes the patch's value, and
`updated_at` moves to the request time, strictly above its old value
whenever the clock advanced. -/
theorem update_applies_exactly_patch_fields (store : List Row) (r : Row)
    (p : Patch) (now : Nat) (hr : r ∈ store) (hnow : r.updated_at < now) :
    (∃ out, update_entity store r.id p now = .ok out ∧
       out.1 = store.map (fun s => if s.id == r.id then applyPatch now p s else s)) ∧
    (∃ out, update_entity_by_place_id store r.place_id p now = .ok out ∧
       out.1 = store.map
         (fun s => if s.place_id == r.place_id then applyPatch now p s else s)) ∧
    patchFrame now p r (applyPatch now p r) ∧
    r.updated_at < (applyPatch now p r).updated_at := by
  refine ⟨?_, ?_, applyPatch_patchFrame now p r, hnow⟩
  · have hmemf : r ∈ store.filter (fun s => s.id == r.id) :=
      List.mem_filter.mpr ⟨hr, by simp⟩
    have hne : store.filter (fun s => s.id == r.id) ≠ [] :=
      List.ne_nil_of_mem hmemf
    have hmem2 : applyPatch now p r ∈
        (store.map (fun s => if s.id == r.id then applyPatch now p s else s)).filter
          (fun s => s.id == r.id) := by
      apply List.mem_filter.mpr
      refine ⟨?_, by simp [applyPatch]⟩
      have hmapped := List.mem_map_of_mem
        (fun s => if s.id == r.id then applyPatch now p s else s) hr
      simpa using hmapped
    have hne2 : (store.map (fun s => if s.id == r.id then applyPatch now p s else s)).filter
        (fun s => s.id == r.id) ≠ [] := List.ne_nil_of_mem hmem2
    simp only [update_entity]
    rw [if_neg (by simpa using hne)]
    cases hm : (store.map (fun s => if s.id == r.id then applyPatch now p s else s)).filter
        (fun s => s.id == r.id) with
    | nil => exact absurd hm hne2
    | cons a l =>
      exact ⟨(store.map (fun s => if s.id == r.id then applyPatch now p s else s), a),
        rfl, rfl⟩
  · have hmemf : r ∈ store.filter (fun s => s.place_id == r.place_id) :=
      List.mem_filter.mpr ⟨hr, by simp⟩
    have hne : store.filter (fun s => s.place_id == r.place_id) ≠ [] :=
      List.ne_nil_of_mem hmemf
    have hmem2 : applyPatch now p r ∈
        (store.map
          (fun s => if s.place_id == r.place_id then applyPatch now p s else s)).filter
          (fun s => s.place_id == r.place_id) := by
      apply List.mem_filter.mpr
      refine ⟨?_, by simp [applyPatch]⟩
      have hmapped := List.mem_map_of_mem
        (fun s => if s.place_id == r.place_id then applyPatch now p s else s) hr
      simpa using hmapped
    have hne2 : (store.map
        (fun s => if s.place_id == r.place_id then applyPatch now p s else s)).filter
        (fun s => s.place_id == r.place_id) ≠ [] := List.ne_nil_of_mem hmem2
    simp only [update_entity_by_place_id]
    rw [if_neg (by simpa using hne)]
    cases hm : (store.map
        (fun s => if s.place_id == r.place_id then applyPatch now p s else s)).filter
        (fun s => s.place_id == r.place_id) with
    | nil => exact absurd hm hne2
    | cons a l =>
      exact ⟨(store.map
        (fun s => if s.place_id == r.place_id then applyPatch now p s else s), a),
        rfl, rfl⟩

/-- A concrete row and a rating-only patch for the C6 witness. -/
def w6Row : Row :=
  { id := "e1", place_id := "pl1", name := "Shop", images := ["i.jpg"],
    updated_at := 3 }

def w6Patch : Patch := { rating := some 5 }

theorem update_applies_exactly_patch_fields_witness :
    ((∃ out, update_entity [w6Row] w6Row.id w6Patch 10 = .ok out ∧
       out.1 = [w6Row].map
         (fun s => if s.id == w6Row.id then applyPatch 10 w6Patch s else s)) ∧
     (∃ out, update_entity_by_place_id [w6Row] w6Row.place_id w6Patch 10 = .ok out ∧
       out.1 = [w6Row].map
         (fun s => if s.place_id == w6Row.place_id then applyPatch 10 w6Patch s else s)) ∧
     patchFrame 10 w6Patch w6Row (applyPatch 10 w6Patch w6Row) ∧
     w6Row.updated_at < (applyPatch 10 w6Patch w6Row).updated_at) :=
  update_applies_exactly_patch_fields [w6Row] w6Row w6Patch 10
    (List.mem_singleton.mpr rfl) (by decide)

/-- Decimal digit characters of a natural number, most significant first
(the contents of Python `f"{counter}"` and of Lean `Nat.repr`). -/
def decDigits (n : Nat) : List Char :=
  if _h : n < 10 then [Nat.digitChar n]
  else decDigits (n / 10) ++ [Nat.digitChar (n % 10)]
termination_by n
decreasing_by exact Nat.div_lt_self (by omega) (by decide)

theorem toDigitsCore_eq_decDigits :
    ∀ (fuel n : Nat) (ds : List Char), n < fuel →
      Nat.toDigitsCore 10 fuel n ds = decDigits n ++ ds := by
  intro fuel
  induction fuel with
  | zero => intro n ds h; omega
  | succ f ih =>
    intro n ds h
    simp only [Nat.toDigitsCore]
    by_cases h10 : n / 10 = 0
    · rw [if_pos h10]
      have hn : n < 10 := by omega
      rw [decDigits, dif_pos hn, Nat.mod_eq_of_lt hn]
      rfl
    · rw [if_neg h10]
      have hlt : n / 10 < f := by omega
      rw [ih (n / 10) _ hlt]
      conv_rhs => rw [decDigits]
      rw [dif_neg (by omega : ¬ n < 10)]
      simp

def digitVal (c : Char) : Nat := c.toNat - 48

theorem digitVal_digitChar {d : Nat} (h : d < 10) :
    digitVal (Nat.digitChar d) = d := by
  interval_cases d <;> rfl

def decodeDigits (l : List Char) : Nat :=
  l.foldl (fun a c => a * 10 + digitVal c) 0

theorem decodeDigits_decDigits (n : Nat) : decodeDigits (decDigits n) = n := by
  induction n using Nat.strong_induction_on with
  | _ n ih =>
    by_cases h : n < 10
    · rw [decDigits, dif_pos h]
      simp [decodeDigits, digitVal_digitChar h]
    · rw [decDigits, dif_neg h]
      have hlt : n / 10 < n := Nat.div_lt_self (by omega) (by decide)
      have ihd := ih (n / 10) hlt
      simp only [decodeDigits, List.foldl_append] at ihd ⊢
      rw [ihd]
      simp only [List.foldl_cons, List.foldl_nil]
      rw [digitVal_digitChar (Nat.mod_lt n (by decide))]
      omega

theorem decDigits_injective : Function.Injective decDigits := by
  intro m n h
  have h2 := congrArg decodeDigits h
  rwa [decodeDigits_decDigits, decodeDigits_decDigits] at h2

theorem toDigits_eq_decDigits (n : Nat) : Nat.toDigits 10 n = decDigits n := by
  rw [Nat.toDigits, toDigitsCore_eq_decDigits (n + 1) n [] (Nat.lt_succ_self n)]
  simp

theorem repr_data (n : Nat) : (Nat.repr n).data = decDigits n := by
  rw [Nat.repr]
  show (Nat.toDigits 10 n).asString.data = decDigits n
  rw [toDigits_eq_decDigits]
  rfl

theorem repr_injective : Function.Injective Nat.repr := by
  intro m n h
  exact decDigits_injective (by rw [← repr_data, ← repr_data, h])

theorem decDigits_ne_nil (n : Nat) : decDigits n ≠ [] := by
  by_cases h : n < 10
  · rw [decDigits, dif_pos h]; simp
  · rw [decDigits, dif_neg h]; simp

/-- Split a character list at its last dot, the extension part keeping the
dot; `none` when no dot occurs. -/
def splitAtLastDot : List Char → Option (List Char × List Char)
  | [] => none
  | c :: rest =>
    match splitAtLastDot rest with
    | some p => some (c :: p.1, p.2)
    | none => if c = '.' then some ([], c :: rest) else none

/-- `os.path.splitext` for a plain file name (`src/main.py` line 167):
the extension starts at the last dot, except that the leading run of dots
never starts an extension (`.bashrc` has no extension).  Path separators
inside the name are outside the modelled fragment. -/
def splitExtChars (cs : List Char) : List Char × List Char :=
  match splitAtLastDot (cs.dropWhile (fun c => c == '.')) with
  | some p => (cs.takeWhile (fun c => c == '.') ++ p.1, p.2)
  | none => (cs, [])

def splitExt (s : String) : String × String :=
  (⟨(splitExtChars s.data).1⟩, ⟨(splitExtChars s.data).2⟩)

/-- The k-th candidate filename tried by the collision loop
(`src/main.py` lines 164-172): the original name for `k = 0`, then
`f"{original_name}_{counter}{ext}"` for `counter = k`. -/
def candidateName (fname : String) (k : Nat) : String :=
  if k = 0 then fname
  else (splitExt fname).1 ++ "_" ++ Nat.repr k ++ (splitExt fname).2

def freshNameAux (dir : List String) (fname : String) : Nat → Nat → String
  | 0, k => candidateName fname k
  | fuel + 1, k =>
    if candidateName fname k ∈ dir then freshNameAux dir fname fuel (k + 1)
    else candidateName fname k

/-- The `while os.path.exists(file_path)` loop: the first candidate name
not present in the directory.  The candidates are pairwise distinct, so a
fuel of `dir.length + 2` provably suffices to reach a free one. -/
def freshName (dir : List String) (fname : String) : String :=
  freshNameAux dir fname (dir.length + 2) 0

theorem splitAtLastDot_append :
    ∀ (cs b e : List Char), splitAtLastDot cs = some (b, e) → b ++ e = cs := by
  intro cs
  induction cs with
  | nil => intro b e h; simp [splitAtLastDot] at h
  | cons c rest ih =>
    intro b e h
    simp only [splitAtLastDot] at h
    cases hr : splitAtLastDot rest with
    | some p =>
      rw [hr] at h
      simp only [Option.some.injEq, Prod.mk.injEq] at h
      obtain ⟨hb, he⟩ := h
      have hp := ih p.1 p.2 (by rw [hr])
      rw [← hb, ← he]
      simp [hp]
    | none =>
      rw [hr] at h
      by_cases hc : c = '.'
      · rw [if_pos hc] at h
        simp only [Option.some.injEq, Prod.mk.injEq] at h
        obtain ⟨hb, he⟩ := h
        rw [← hb, ← he]
        simp
      · rw [if_neg hc] at h
        cases h

theorem splitExtChars_append (cs : List Char) :
    (splitExtChars cs).1 ++ (splitExtChars cs).2 = cs := by
  unfold splitExtChars
  cases h : splitAtLastDot (cs.dropWhile (fun c => c == '.')) with
  | none => simp
  | some p =>
    simp only
    rw [List.append_assoc, splitAtLastDot_append _ p.1 p.2 h]
    exact List.takeWhile_append_dropWhile _ _

theorem splitExt_append (s : String) :
    ((splitExt s).1 ++ (splitExt s).2).data = s.data := by
  simp only [splitExt, String.data_append]
  exact splitExtChars_append s.data

theorem candidateName_injective (fname : String) :
    Function.Injective (candidateName fname) := by
  intro j k h
  rcases j with _ | j <;> rcases k with _ | k
  · rfl
  · exfalso
    simp only [candidateName, if_pos, if_neg (Nat.succ_ne_zero k)] at h
    have hlen := congrArg (fun s => s.data.length) h
    simp only [String.data_append, List.length_append] at hlen
    have hfl : fname.data.length =
        (splitExt fname).1.data.length + (splitExt fname).2.data.length := by
      have := congrArg List.length (splitExt_append fname)
      simpa [String.data_append] using this.symm
    have hrep : (Nat.repr (k + 1)).data.length ≥ 1 := by
      rw [repr_data]
      cases hd : decDigits (k + 1) with
      | nil => exact absurd hd (decDigits_ne_nil (k + 1))
      | cons a l => simp
    have hus : ("_" : String).data.length = 1 := rfl
    omega
  · exfalso
    simp only [candidateName, if_pos, if_neg (Nat.succ_ne_zero j)] at h
    have hlen := congrArg (fun s => s.data.length) h
    simp only [String.data_append, List.length_append] at hlen
    have hfl : fname.data.length =
        (splitExt fname).1.data.length + (splitExt fname).2.data.length := by
      have := congrArg List.length (splitExt_append fname)
      simpa [String.data_append] using this.symm
    have hrep : (Nat.repr (j + 1)).data.length ≥ 1 := by
      rw [repr_data]
      cases hd : decDigits (j + 1) with
      | nil => exact absurd hd (decDigits_ne_nil (j + 1))
      | cons a l => simp
    have hus : ("_" : String).data.length = 1 := rfl
    omega
  · simp only [candidateName, if_neg (Nat.succ_ne_zero j),
      if_neg (Nat.succ_ne_zero k)] at h
    have hdata := congrArg String.data h
    simp only [String.data_append] at hdata
    simp only [List.append_assoc] at hdata
    have ha : ['_'] ++ ((Nat.repr (j + 1)).data ++ (splitExt fname).2.data) =
        ['_'] ++ ((Nat.repr (k + 1)).data ++ (splitExt fname).2.data) :=
      List.append_cancel_left hdata
    have h1 : (Nat.repr (j + 1)).data ++ (splitExt fname).2.data =
        (Nat.repr (k + 1)).data ++ (splitExt fname).2.data :=
      List.append_cancel_left ha
    have h2 : (Nat.repr (j + 1)).data = (Nat.repr (k + 1)).data :=
      List.append_cancel_right h1
    have h3 : Nat.repr (j + 1) = Nat.repr (k + 1) := String.ext h2
    have := repr_injective h3
    omega

theorem exists_fresh_candidate (dir : List String) (fname : String) :
    ∃ j, j < dir.length + 2 ∧ candidateName fname j ∉ dir := by
  by_contra hall
  push_neg at hall
  have hinj : Function.Injective (fun m : Nat => candidateName fname (m + 1)) := by
    intro a b hab
    have := candidateName_injective fname hab
    omega
  have hnodup : ((List.range (dir.length + 1)).map
      (fun m => candidateName fname (m + 1))).Nodup :=
    (List.nodup_range _).map hinj
  have hsub : ∀ x ∈ (List.range (dir.length + 1)).map
      (fun m => candidateName fname (m + 1)), x ∈ dir := by
    intro x hx
    obtain ⟨m, hm, rfl⟩ := List.mem_map.mp hx
    rw [List.mem_range] at hm
    exact hall (m + 1) (by omega)
  have h1 : ((List.range (dir.length + 1)).map
      (fun m => candidateName fname (m + 1))).toFinset.card =
      dir.length + 1 := by
    rw [List.toFinset_card_of_nodup hnodup]
    simp
  have h2 : ((List.range (dir.length + 1)).map
      (fun m => candidateName fname (m + 1))).toFinset ⊆ dir.toFinset := by
    intro x hx
    rw [List.mem_toFinset] at hx ⊢
    exact hsub x hx
  have h3 := Finset.card_le_card h2
  have h4 := List.toFinset_card_le (l := dir)
  omega

theorem freshNameAux_spec (dir : List String) (fname : String) :
    ∀ (fuel k : Nat), (∃ j, j < fuel ∧ candidateName fname (k + j) ∉ dir) →
      ∃ m, freshNameAux dir fname fuel k = candidateName fname (k + m) ∧
        candidateName fname (k + m) ∉ dir ∧
        ∀ i < m, candidateName fname (k + i) ∈ dir := by
  intro fuel
  induction fuel with
  | zero =>
    intro k h
    obtain ⟨j, hj, _⟩ := h
    omega
  | succ f ih =>
    intro k h
    obtain ⟨j, hj, hfresh⟩ := h
    by_cases hk : candidateName fname k ∈ dir
    · have hj' : ∃ j', j' < f ∧ candidateName fname (k + 1 + j') ∉ dir := by
        cases j with
        | zero => simp only [Nat.add_zero] at hfresh; exact absurd hk hfresh
        | succ j' =>
          refine ⟨j', by omega, ?_⟩
          have harith : k + 1 + j' = k + (j' + 1) := by omega
          rw [harith]
          exact hfresh
      obtain ⟨m, hm1, hm2, hm3⟩ := ih (k + 1) hj'
      refine ⟨m + 1, ?_, ?_, ?_⟩
      · simp only [freshNameAux, if_pos hk]
        rw [hm1]
        congr 1
        omega
      · have harith : k + (m + 1) = k + 1 + m := by omega
        rw [harith]
        exact hm2
      · intro i hi
        cases i with
        | zero => simpa using hk
        | succ i' =>
          have harith : k + (i' + 1) = k + 1 + i' := by omega
          rw [harith]
          exact hm3 i' (by omega)
    · refine ⟨0, ?_, by simpa using hk, by omega⟩
      simp only [freshNameAux, if_neg hk, Nat.add_zero]

theorem freshName_first_fresh (dir : List String) (fname : String) :
    ∃ k, freshName dir fname = candidateName fname k ∧
      candidateName fname k ∉ dir ∧ ∀ j < k, candidateName fname j ∈ dir := by
  obtain ⟨j, hj, hfresh⟩ := exists_fresh_candidate dir fname
  obtain ⟨m, h1, h2, h3⟩ := freshNameAux_spec dir fname (dir.length + 2) 0
    ⟨j, hj, by simpa using hfresh⟩
  refine ⟨m, by simpa using h1, by simpa using h2, fun i hi => by simpa using h3 i hi⟩

/-- One file of a multipart upload request. -/
structure FileIn where
  filename : String
  content_type : String
  deriving DecidableEq, Repr

/-- The content-type check of the upload loop (`src/main.py` line 161):
`if not file.content_type or not file.content_type.startswith("image/")`. -/
def isImageFile (f : FileIn) : Bool :=
  !(f.content_type == "") && strStartsWith "image/" f.content_type

/-- The filesystem, as the listing of each entity folder
(association list folder path to stored file names). -/
def diskGet (disk : List (String × List String)) (folder : String) : List String :=
  match disk.find? (fun p => p.1 == folder) with
  | some p => p.2
  | none => []

def diskSet (disk : List (String × List String)) (folder : String)
    (files : List String) : List (String × List String) :=
  if disk.any (fun p => p.1 == folder) then
    disk.map (fun p => if p.1 == folder then (folder, files) else p)
  else disk ++ [(folder, files)]

/-- The per-file loop of the upload handlers (`src/main.py` lines 159-178):
validate the content type, pick a collision-free name, write the file (the
directory listing grows), collect the stored basename.  Returns the final
directory listing, the stored names in order, and whether the whole loop
ran without a validation failure; on a failure the files already written
stay in the directory and the loop aborts. -/
def uploadLoop : List String → List FileIn → List String × List String × Bool
  | dir, [] => (dir, [], true)
  | dir, f :: rest =>
    if isImageFile f then
      let nm := freshName dir f.filename
      let out := uploadLoop (dir ++ [nm]) rest
      (out.1, nm :: out.2.1, out.2.2)
    else (dir, [], false)

/-- Outcome of an upload request: the table, the filesystem, and either an
error status or the stored names with the updated entity row. -/
structure UploadResult where
  store : List Row
  disk : List (String × List String)
  outcome : Except Nat (List String × Row)
  deriving Repr

instance {ε α : Type} [DecidableEq ε] [DecidableEq α] : DecidableEq (Except ε α) := by
  intro a b
  cases a <;> cases b <;>
    first
      | (rename_i x y
         exact if h : x = y then .isTrue (by rw [h]) else
           .isFalse (fun hh => h (by cases hh; rfl)))
      | exact .isFalse (fun hh => by cases hh)

/-- The shared part of both upload handlers after the folder name is known
(`src/main.py` lines 148-201): resolve the folder path, run the file loop,
and only after the whole loop succeeds write the entity patch
`{images: dedup(existing + uploaded), uploaded_image: true, updated_at: now}`
to every key-matching row.  A mid-loop validation failure answers 400
with the table untouched (the files already written remain on disk).
Python's `list(set(...))` order is unspecified; the model keeps first
occurrences. -/
def uploadPatch (now : Nat) (newImages : List String) (key : Row → Bool)
    (store : List Row) : List Row :=
  store.map (fun r => if key r then
    { r with images := newImages, uploaded_image := some true,
             updated_at := now } else r)

def uploadCore (store : List Row) (key : Row → Bool) (entityImages : List String)
    (fn : String) (files : List FileIn) (disk : List (String × List String))
    (now : Nat) : UploadResult :=
  let folder := pathJoin baseDirStr fn
  let res := uploadLoop (diskGet disk folder) files
  let disk' := diskSet disk folder res.1
  if res.2.2 then
    let newImages := (entityImages ++ res.2.1).dedup
    match (uploadPatch now newImages key store).filter key with
    | [] => ⟨store, disk', .error 500⟩
    | r :: _ => ⟨uploadPatch now newImages key store, disk', .ok (res.2.1, r)⟩
  else ⟨store, disk', .error 400⟩

/-- Both upload handlers (`src/main.py` lines 115-206 and 208-299), which
differ only in the lookup key: resolve the entity (404 on miss); when
`folder_name` is falsy, require truthy name and address (400 otherwise),
derive the folder name and persist it — a store write that happens before
any file is validated; then run the shared upload core. -/
def uploadWith (store : List Row) (key : Row → Bool) (files : List FileIn)
    (disk : List (String × List String)) (now : Nat) : UploadResult :=
  match store.filter key with
  | [] => ⟨store, disk, .error 404⟩
  | entity :: _ =>
    if truthyStr entity.folder_name then
      uploadCore store key entity.images (entity.folder_name.getD "") files disk now
    else
      if entity.name == "" || !(truthyStr entity.address) then
        ⟨store, disk, .error 400⟩
      else
        let fn := deriveFolderName entity.name (entity.address.getD "")
        uploadCore
          (store.map (fun r => if key r then { r with folder_name := some fn } else r))
          key entity.images fn files disk now

def upload_images_by_id (store : List Row) (eid : String) (files : List FileIn)
    (disk : List (String × List String)) (now : Nat) : UploadResult :=
  uploadWith store (fun r => r.id == eid) files disk now

def upload_images_by_place_id (store : List Row) (pid : String) (files : List FileIn)
    (disk : List (String × List String)) (now : Nat) : UploadResult :=
  uploadWith store (fun r => r.place_id == pid) files disk now

theorem uploadLoop_success_iff (files : List FileIn) :
    ∀ dir, (uploadLoop dir files).2.2 = true ↔ ∀ f ∈ files, isImageFile f = true := by
  induction files with
  | nil => intro dir; simp [uploadLoop]
  | cons f rest ih =>
    intro dir
    by_cases hf : isImageFile f = true
    · simp only [uploadLoop, hf, if_true]
      constructor
      · intro h g hg
        rcases List.mem_cons.mp hg with hgf | hgr
        · rw [hgf]; exact hf
        · exact (ih _).mp h g hgr
      · intro h
        exact (ih _).mpr (fun g hg => h g (List.mem_cons_of_mem f hg))
    · simp only [uploadLoop, hf, if_false]
      constructor
      · intro h; cases h
      · intro h; exact absurd (h f (List.mem_cons_self f rest)) hf

theorem uploadPatch_images (now : Nat) (newImages : List String) (key : Row → Bool)
    (store : List Row) :
    ∀ r ∈ uploadPatch now newImages key store, key r = true → r.images = newImages := by
  intro r hr hk
  obtain ⟨r0, hr0, heq⟩ := List.mem_map.mp hr
  by_cases h0 : key r0 = true
  · rw [← heq]
    simp [h0]
  · rw [if_neg h0] at heq
    rw [← heq] at hk
    exact absurd hk h0

theorem uploadCore_fail (store : List Row) (key : Row → Bool)
    (entityImages : List String) (fn : String) (files : List FileIn)
    (disk : List (String × List String)) (now : Nat)
    (hbad : ∃ f ∈ files, isImageFile f = false) :
    (uploadCore store key entityImages fn files disk now).outcome = .error 400 ∧
    (uploadCore store key entityImages fn files disk now).store = store := by
  have hfail : (uploadLoop (diskGet disk (pathJoin baseDirStr fn)) files).2.2 = false := by
    obtain ⟨f, hf, hbadf⟩ := hbad
    cases hres : (uploadLoop (diskGet disk (pathJoin baseDirStr fn)) files).2.2
    · rfl
    · have := (uploadLoop_success_iff files _).mp hres f hf
      rw [hbadf] at this
      cases this
  simp only [uploadCore, hfail, Bool.false_eq_true, if_false]
  exact ⟨trivial, trivial⟩

theorem uploadCore_ok_nodup (store : List Row) (key : Row → Bool)
    (entityImages : List String) (fn : String) (files : List FileIn)
    (disk : List (String × List String)) (now : Nat) (ups : List String) (row : Row)
    (hok : (uploadCore store key entityImages fn files disk now).outcome =
      .ok (ups, row)) :
    (∀ r ∈ (uploadCore store key entityImages fn files disk now).store,
        key r = true → r.images.Nodup) ∧ row.images.Nodup := by
  by_cases hres : (uploadLoop (diskGet disk (pathJoin baseDirStr fn)) files).2.2 = true
  · simp only [uploadCore, hres, if_true] at hok ⊢
    cases hm : (uploadPatch now
        ((entityImages ++
          (uploadLoop (diskGet disk (pathJoin baseDirStr fn)) files).2.1).dedup)
        key store).filter key with
    | nil =>
      rw [hm] at hok
      cases hok
    | cons a l =>
      rw [hm] at hok
      simp only [Except.ok.injEq, Prod.mk.injEq] at hok
      obtain ⟨-, hrow⟩ := hok
      constructor
      · intro r hr hk
        rw [uploadPatch_images now _ key store r hr hk]
        exact List.nodup_dedup _
      · have ha : a ∈ (uploadPatch now
            ((entityImages ++
              (uploadLoop (diskGet disk (pathJoin baseDirStr fn)) files).2.1).dedup)
            key store).filter key := by
          rw [hm]
          exact List.mem_cons_self a l
        have hmem := List.mem_filter.mp ha
        rw [← hrow, uploadPatch_images now _ key store a hmem.1 hmem.2]
        exact List.nodup_dedup _
  · rw [Bool.not_eq_true] at hres
    simp only [uploadCore, hres, Bool.false_eq_true, if_false] at hok
    cases hok

theorem uploadWith_fail_frame (store : List Row) (key : Row → Bool)
    (files : List FileIn) (disk : List (String × List String)) (now : Nat)
    (r : Row) (rest : List Row)
    (hfilter : store.filter key = r :: rest)
    (hfolder : truthyStr r.folder_name = true)
    (hbad : ∃ f ∈ files, isImageFile f = false) :
    (uploadWith store key files disk now).outcome = .error 400 ∧
    (uploadWith store key files disk now).store = store := by
  simp only [uploadWith, hfilter, hfolder, if_true]
  exact uploadCore_fail store key r.images (r.folder_name.getD "") files disk now hbad

theorem uploadWith_ok_nodup (store : List Row) (key : Row → Bool)
    (files : List FileIn) (disk : List (String × List String)) (now : Nat)
    (ups : List String) (row : Row)
    (hok : (uploadWith store key files disk now).outcome = .ok (ups, row)) :
    (∀ r ∈ (uploadWith store key files disk now).store,
        key r = true → r.images.Nodup) ∧ row.images.Nodup := by
  by_cases hfe : store.filter key = []
  · simp only [uploadWith, hfe] at hok
    cases hok
  · obtain ⟨entity, rest, hf⟩ : ∃ e r, store.filter key = e :: r := by
      cases hc : store.filter key with
      | nil => exact absurd hc hfe
      | cons e r => exact ⟨e, r, rfl⟩
    simp only [uploadWith, hf] at hok ⊢
    by_cases ht : truthyStr entity.folder_name = true
    · simp only [ht, if_true] at hok ⊢
      exact uploadCore_ok_nodup _ _ _ _ _ _ _ _ _ hok
    · rw [Bool.not_eq_true] at ht
      simp only [ht, Bool.false_eq_true, if_false] at hok ⊢
      by_cases hg : (entity.name == "" || !(truthyStr entity.address)) = true
      · simp only [hg, if_true] at hok
        cases hok
      · rw [Bool.not_eq_true] at hg
        simp only [hg, Bool.false_eq_true, if_false] at hok ⊢
        exact uploadCore_ok_nodup _ _ _ _ _ _ _ _ _ hok

/-- A NULL-`folder_name` row and a non-image file for the C10
counterexample. -/
def c10Row : Row :=
  { id := "7", place_id := "p7", name := "A B", address := some "9 X, Y" }

def c10BadFile : FileIn := { filename := "x.txt", content_type := "text/plain" }

/-- C10 counterexample: when `folder_name` is still NULL, the handler
derives it and persists it to the database *before* validating any file;
a request whose only file then fails the content-type check is answered
with a 400 error, yet the entity's database record has been changed
(`folder_name` was written) — not left entirely unchanged as claimed. -/
theorem upload_failure_still_writes_folder_name :
    (upload_images_by_id [c10Row] "7" [c10BadFile] [] 3).outcome = .error 400 ∧
    (upload_images_by_id [c10Row] "7" [c10BadFile] [] 3).store =
      [{ c10Row with folder_name := some "ab_9x" }] ∧
    [{ c10Row with folder_name := some "ab_9x" }] ≠ [c10Row] := by
  refine ⟨by decide, by decide, by decide⟩

/-- C10 amended: when some file fails the content-type validation the
handler answers 400 and the patch writing `images`, `uploaded_image` and
`updated_at` — which is applied only after the whole loop — is never
persisted, so the entity's record is unchanged *provided its
`folder_name` was already set*; if it was NULL, the request may still
have persisted the derived `folder_name` before the failure (bytes of
earlier files may also remain on disk). -/
theorem upload_validation_failure_frame (store : List Row) (eid pid : String)
    (files : List FileIn) (disk : List (String × List String)) (now : Nat)
    (hbad : ∃ f ∈ files, isImageFile f = false) :
    (∀ r rest, store.filter (fun s => s.id == eid) = r :: rest →
       truthyStr r.folder_name = true →
       (upload_images_by_id store eid files disk now).outcome = .error 400 ∧
       (upload_images_by_id store eid files disk now).store = store) ∧
    (∀ r rest, store.filter (fun s => s.place_id == pid) = r :: rest →
       truthyStr r.folder_name = true →
       (upload_images_by_place_id store pid files disk now).outcome = .error 400 ∧
       (upload_images_by_place_id store pid files disk now).store = store) := by
  constructor
  · intro r rest hf ht
    exact uploadWith_fail_frame store _ files disk now r rest hf ht hbad
  · intro r rest hf ht
    exact uploadWith_fail_frame store _ files disk now r rest hf ht hbad

def c10RowSet : Row := { c10Row with folder_name := some "ab_9x" }

theorem upload_validation_failure_frame_witness :
    (upload_images_by_id [c10RowSet] "7" [c10BadFile] [] 3).outcome = .error 400 ∧
    (upload_images_by_id [c10RowSet] "7" [c10BadFile] [] 3).store = [c10RowSet] :=
  (upload_validation_failure_frame [c10RowSet] "7" "p7" [c10BadFile] [] 3
    ⟨c10BadFile, List.mem_cons_self _ _, by decide⟩).1 c10RowSet [] (by decide) (by decide)

/-- C7 counterexample: `POST /entity` inserts the client's `images` list
verbatim (no deduplication), so after a create with
`images = ["a","a"]` the stored entity's images list holds a duplicate. -/
theorem create_stores_duplicate_images :
    (create_entity { place_id := "p", name := "n", images := ["a", "a"] } "id9" 0 []).1 =
      [mkCreatedRow { place_id := "p", name := "n", images := ["a", "a"] } "id9" 0] ∧
    (mkCreatedRow { place_id := "p", name := "n", images := ["a", "a"] } "id9" 0).images =
      ["a", "a"] ∧
    ¬ (["a", "a"] : List String).Nodup := by
  exact ⟨rfl, rfl, by decide⟩

/-- C7 amended: the image-upload handlers always leave the entity's images
list duplicate-free (the merge deduplicates); create and update store the
request's list verbatim, so after those operations the list is
duplicate-free exactly when the request's list was. -/
theorem images_nodup_amended (store : List Row) (eid pid : String)
    (files : List FileIn) (disk : List (String × List String)) (now : Nat) :
    (∀ ups row, (upload_images_by_id store eid files disk now).outcome = .ok (ups, row) →
       (∀ r ∈ (upload_images_by_id store eid files disk now).store,
          (r.id == eid) = true → r.images.Nodup) ∧ row.images.Nodup) ∧
    (∀ ups row,
       (upload_images_by_place_id store pid files disk now).outcome = .ok (ups, row) →
       (∀ r ∈ (upload_images_by_place_id store pid files disk now).store,
          (r.place_id == pid) = true → r.images.Nodup) ∧ row.images.Nodup) ∧
    (∀ (e : EntityIn) (fid : String), e.images.Nodup →
       (mkCreatedRow e fid now).images.Nodup) ∧
    (∀ (p : Patch) (r : Row),
       (p.images = none → (applyPatch now p r).images = r.images) ∧
       (∀ v, p.images = some v → (applyPatch now p r).images = v)) := by
  refine ⟨?_, ?_, ?_, ?_⟩
  · intro ups row hok
    exact uploadWith_ok_nodup store _ files disk now ups row hok
  · intro ups row hok
    exact uploadWith_ok_nodup store _ files disk now ups row hok
  · intro e fid h
    exact h
  · intro p r
    exact ⟨fun h => by simp [applyPatch, h], fun v hv => by simp [applyPatch, hv]⟩

theorem images_nodup_amended_witness :
    (mkCreatedRow { place_id := "p", name := "n", images := ["a", "b"] } "idw" 0).images.Nodup :=
  (images_nodup_amended [] "x" "y" [] [] 0).2.2.1
    { place_id := "p", name := "n", images := ["a", "b"] } "idw" (by decide)

/-- A row whose folder name is already set, and an image file, for the
double-upload example. -/
def c5Row : Row :=
  { id := "5", place_id := "p5", name := "Shop", address := some "1 St, T",
    folder_name := some "shop_1st" }

def photoFile : FileIn := { filename := "photo.jpg", content_type := "image/jpeg" }

def c5Up1 : UploadResult := upload_images_by_id [c5Row] "5" [photoFile] [] 7

def c5Up2 : UploadResult :=
  upload_images_by_id c5Up1.store "5" [photoFile] c5Up1.disk 8

/-- C5: the stored filename is the first element of the candidate sequence
`name.ext`, `name_1.ext`, `name_2.ext`, … not already present in the
directory; uploading `photo.jpg` twice to the same entity folder stores
`photo.jpg` and then `photo_1.jpg`, and the entity's images list
afterwards holds both names with no duplicates. -/
theorem upload_filename_first_free_candidate :
    (∀ (dir : List String) (fname : String),
       ∃ k, freshName dir fname = candidateName fname k ∧
         candidateName fname k ∉ dir ∧ ∀ j < k, candidateName fname j ∈ dir) ∧
    c5Up1.outcome = .ok (["photo.jpg"],
      { c5Row with images := ["photo.jpg"], uploaded_image := some true,
                   updated_at := 7 }) ∧
    c5Up2.outcome = .ok (["photo_1.jpg"],
      { c5Row with images := ["photo.jpg", "photo_1.jpg"],
                   uploaded_image := some true, updated_at := 8 }) ∧
    (["photo.jpg", "photo_1.jpg"] : List String).Nodup := by
  refine ⟨freshName_first_fresh, by decide, by decide, by decide⟩
